import Mathlib

/-!
Verification of the AIQA client span-export pipeline (`aiqa-exporter.ts` and
`tracing.ts`): the redaction filter, the deduplicating bounded span buffer,
the size-aware batcher, and the flush protocol, shallowly embedded in Lean.
-/

namespace Aiqa

/-! ## JSON-like attribute values

JS attribute payloads are arbitrarily nested null / boolean / number /
string / array / object data.  Numbers are modelled as integers. -/

inductive Value where
  | vnull : Value
  | vbool : Bool → Value
  | vnum : Int → Value
  | vstr : String → Value
  | varr : List Value → Value
  | vobj : List (String × Value) → Value

/-- JS truthiness of a value: `!value` is true exactly for `null`, `false`,
`0` and the empty string (arrays and objects are always truthy). -/
def truthy : Value → Bool
  | .vnull => false
  | .vbool b => b
  | .vnum n => n != 0
  | .vstr s => !(s == "")
  | .varr _ => true
  | .vobj _ => true

/-! ## String helpers

Executable (kernel-reducible) models of the JS string operations used by the
filters: `toLowerCase`, `includes`, `startsWith`, `split('.')`, `trim`. -/

/-- ASCII lower-casing of a character (model of JS `toLowerCase`). -/
def lowerChar (c : Char) : Char :=
  if 'A' ≤ c && c ≤ 'Z' then Char.ofNat (c.toNat + 32) else c

/-- Lower-case every character of a string. -/
def lowerStr (s : String) : String := String.mk (s.data.map lowerChar)

/-- Does the character list `hay` start with `pat`? -/
def startsWithL : List Char → List Char → Bool
  | _, [] => true
  | [], _ :: _ => false
  | h :: hs, p :: ps => h == p && startsWithL hs ps

/-- Does the character list `hay` contain `pat` as a contiguous substring
(model of JS `String.includes`)? -/
def containsSubL : List Char → List Char → Bool
  | [], pat => startsWithL [] pat
  | h :: t, pat => startsWithL (h :: t) pat || containsSubL t pat

/-- String-level substring test. -/
def containsSubstr (s pat : String) : Bool := containsSubL s.data pat.data

/-- String-level starts-with test (model of JS `String.startsWith`). -/
def startsWithStr (s pat : String) : Bool := startsWithL s.data pat.data

/-- Model of JS `split('.')`: splits a character list at every dot, keeping
empty segments, so the result always has (number of dots + 1) parts. -/
def splitOnDotL : List Char → List (List Char)
  | [] => [[]]
  | c :: rest =>
    let r := splitOnDotL rest
    if c == '.' then [] :: r
    else
      match r with
      | [] => [[c]]
      | h :: t => (c :: h) :: t

/-- Is `c` a whitespace character (for the model of JS `trim`)? -/
def isWsChar (c : Char) : Bool := c == ' ' || c == '\t' || c == '\n' || c == '\r'

/-- Model of JS `String.trim` (ASCII whitespace). -/
def trimStr (s : String) : String :=
  String.mk (((s.data.dropWhile isWsChar).reverse.dropWhile isWsChar).reverse)

/-! ## Redaction filter (`applyDataFilters` / `filterDataRecursive`)

Faithful embedding of the data filters in `aiqa-exporter.ts` (the same code
appears in `tracing.ts`).  The enabled-filter set (read from
`AIQA_DATA_FILTERS` in the source) is modelled as a record of four flags. -/

/-- The set of enabled data filters (source: `getEnabledFilters`). -/
structure Filters where
  removePasswords : Bool
  removeJWT : Bool
  removeAuthHeaders : Bool
  removeAPIKeys : Bool
  deriving DecidableEq

/-- The default filter set (`"RemovePasswords, RemoveJWT"`). -/
def defaultFilters : Filters := ⟨true, true, false, false⟩

/-- The mask token `'****'` that replaces sensitive values. -/
def maskValue : Value := .vstr "****"

/-- Source `isJWTToken` on strings: exactly three dot-separated non-empty
segments and the literal prefix `"eyJ"`. -/
def isJWTTokenStr (s : String) : Bool :=
  let parts := splitOnDotL s.data
  parts.length == 3 && startsWithStr s "eyJ" && parts.all (fun p => !p.isEmpty)

/-- Source `isJWTToken`: non-strings are never JWT tokens. -/
def isJWTToken : Value → Bool
  | .vstr s => isJWTTokenStr s
  | _ => false

/-- The fixed provider API-key value prefixes from the source. -/
def apiKeyValueStarts : List String :=
  ["sk-", "pk-", "AKIA", "ghp_", "gho_", "ghu_", "ghs_", "ghr_"]

/-- Source `isAPIKey`: a string whose trimmed form starts with one of the
provider key prefixes; non-strings never match. -/
def isAPIKey : Value → Bool
  | .vstr s => apiKeyValueStarts.any (fun p => startsWithStr (trimStr s) p)
  | _ => false

/-- The fixed API-key key-name fragments from the source (the source list
repeats `"apikey"`). -/
def apiKeyKeyPatterns : List String := ["api_key", "apikey", "api-key", "apikey"]

/-- Source `applyDataFilters(key, value)`: falsy values pass through; then the
enabled rules are tried in order `RemovePasswords`, `RemoveJWT`,
`RemoveAuthHeaders`, `RemoveAPIKeys` (key fragments, then value shape); a
match replaces the value with the mask token. -/
def applyDataFilters (flt : Filters) (key : String) (v : Value) : Value :=
  if !truthy v then v
  else if flt.removePasswords && containsSubstr (lowerStr key) "password" then maskValue
  else if flt.removeJWT && isJWTToken v then maskValue
  else if flt.removeAuthHeaders && (lowerStr key == "authorization") then maskValue
  else if flt.removeAPIKeys && apiKeyKeyPatterns.any (fun p => containsSubstr (lowerStr key) p) then
    maskValue
  else if flt.removeAPIKeys && isAPIKey v then maskValue
  else v

/-- `applyDataFilters` either leaves its input unchanged or replaces it with
the mask token. -/
theorem applyDataFilters_eq_or (flt : Filters) (key : String) (v : Value) :
    applyDataFilters flt key v = v ∨ applyDataFilters flt key v = maskValue := by
  unfold applyDataFilters
  repeat' first
    | exact Or.inl rfl
    | exact Or.inr rfl
    | split

/-- The mask token is a fixed point of `applyDataFilters` at every key. -/
theorem applyDataFilters_mask (flt : Filters) (key : String) :
    applyDataFilters flt key maskValue = maskValue := by
  rcases applyDataFilters_eq_or flt key maskValue with h | h <;> exact h

/-! Size measure used to justify termination of the recursive filter (the
filter may replace a subtree by the mask token before recursing into it). -/

mutual

/-- Structural size of a value (every value has size at least 1). -/
def valueSize : Value → Nat
  | .vnull => 1
  | .vbool _ => 1
  | .vnum _ => 1
  | .vstr _ => 1
  | .varr l => 1 + valueListSize l
  | .vobj kvs => 1 + valueEntriesSize kvs

/-- Size of a list of values. -/
def valueListSize : List Value → Nat
  | [] => 0
  | x :: xs => 1 + valueSize x + valueListSize xs

/-- Size of a list of object entries. -/
def valueEntriesSize : List (String × Value) → Nat
  | [] => 0
  | kv :: r => 1 + valueSize kv.2 + valueEntriesSize r

end

theorem valueSize_pos (v : Value) : 1 ≤ valueSize v := by
  cases v <;> simp [valueSize]

theorem valueSize_mask : valueSize maskValue = 1 := rfl

theorem valueSize_applyDataFilters (flt : Filters) (key : String) (v : Value) :
    valueSize (applyDataFilters flt key v) ≤ valueSize v := by
  rcases applyDataFilters_eq_or flt key v with h | h
  · rw [h]
  · rw [h, valueSize_mask]
    exact valueSize_pos v

mutual

/-- Source `filterDataRecursive(data)`: null passes through, arrays are
filtered element-wise, objects filter each value with the entry's key and then
recurse into the (possibly masked) result, and primitive leaves are filtered
with the empty key. -/
def filterDataRecursive (flt : Filters) : Value → Value
  | .vnull => .vnull
  | .varr l => .varr (filterDataList flt l)
  | .vobj kvs => .vobj (filterDataEntries flt kvs)
  | v => applyDataFilters flt "" v
termination_by v => valueSize v
decreasing_by
  all_goals simp [valueSize, valueListSize, valueEntriesSize]

/-- Element-wise recursion of `filterDataRecursive` over an array
(the source's `data.map(item => filterDataRecursive(item))`). -/
def filterDataList (flt : Filters) : List Value → List Value
  | [] => []
  | x :: xs => filterDataRecursive flt x :: filterDataList flt xs
termination_by l => valueListSize l
decreasing_by
  all_goals simp [valueSize, valueListSize, valueEntriesSize]
  all_goals try omega

/-- Entry-wise recursion of `filterDataRecursive` over an object: each value
is first passed through `applyDataFilters` with its key, then recursed into
(the source's `result[k] = filterDataRecursive(applyDataFilters(k, v))`). -/
def filterDataEntries (flt : Filters) : List (String × Value) → List (String × Value)
  | [] => []
  | kv :: r =>
    (kv.1, filterDataRecursive flt (applyDataFilters flt kv.1 kv.2)) :: filterDataEntries flt r
termination_by kvs => valueEntriesSize kvs
decreasing_by
  all_goals simp [valueSize, valueListSize, valueEntriesSize]
  all_goals (have h := valueSize_applyDataFilters flt kv.1 kv.2; omega)

end

/-! ## Span buffer (`AIQASpanExporter`)

The exporter state keeps the ordered buffer, the `(traceId, spanId)` key set
used for deduplication, the capacity and batch-size limits (the source
initialises `maxBufferSpans = 10000` and `maxBatchSizeBytes = 5 MiB`), the
configured-server flag and the shutdown flag. -/

/-- A span as produced by the tracer, before redaction.  Only the fields the
buffer logic inspects are modelled: the identity pair and the attribute
payload that `serializeSpan` runs through the redaction filter. -/
structure SpanRecord where
  traceId : String
  spanId : String
  attributes : Value

/-- A span after `serializeSpan`: identity plus redacted attributes. -/
structure SerializableSpan where
  traceId : String
  spanId : String
  attributes : Value

/-- Source `serializeSpan`: keeps the identity fields and applies
`filterDataRecursive` to the attribute payload. -/
def serializeSpan (flt : Filters) (s : SpanRecord) : SerializableSpan :=
  ⟨s.traceId, s.spanId, filterDataRecursive flt s.attributes⟩

/-- The identity key `` `${traceId}:${spanId}` `` used by the dedup set. -/
def spanKeyOf (s : SerializableSpan) : String := s.traceId ++ ":" ++ s.spanId

/-- Mutable state of the exporter. -/
structure ExporterState where
  buffer : List SerializableSpan
  bufferSpanKeys : List String
  maxBufferSpans : Nat
  maxBatchSizeBytes : Nat
  serverUrlSet : Bool
  shutdownRequested : Bool
  filters : Filters

/-- The capacity the source hardcodes (`maxBufferSpans = 10000`). -/
def defaultMaxBufferSpans : Nat := 10000

/-- Accumulator of one `addToBuffer` call: the locally collected
`serializedSpans`, the (mutated-in-place) key set, and the two counters. -/
structure AddAcc where
  serialized : List SerializableSpan
  keys : List String
  duplicates : Nat
  dropped : Nat

/-- One iteration of the `addToBuffer` loop.  Note the capacity test reads
`this.buffer.length`, which does not change during the loop because the
accepted spans are collected in the local `serializedSpans` array and pushed
only after the loop. -/
def addSpanStep (st : ExporterState) (acc : AddAcc) (span : SpanRecord) : AddAcc :=
  if st.maxBufferSpans ≤ st.buffer.length then
    { acc with dropped := acc.dropped + 1 }
  else
    let s := serializeSpan st.filters span
    let k := spanKeyOf s
    if acc.keys.contains k then { acc with duplicates := acc.duplicates + 1 }
    else { acc with serialized := acc.serialized ++ [s], keys := k :: acc.keys }

/-- Source `addToBuffer`: per-span capacity check against the pre-call buffer
length, then dedup against the key set, then collect; accepted spans are
appended to the buffer after the loop.  Returns the new state together with
`(accepted, duplicates, dropped)`. -/
def addToBuffer (st : ExporterState) (spans : List SpanRecord) :
    ExporterState × Nat × Nat × Nat :=
  let acc := spans.foldl (addSpanStep st) ⟨[], st.bufferSpanKeys, 0, 0⟩
  ({ st with buffer := st.buffer ++ acc.serialized, bufferSpanKeys := acc.keys },
    acc.serialized.length, acc.duplicates, acc.dropped)

/-- Source `removeSpanKeysFromTracking`: deletes the identity keys of the
given spans from the tracked set. -/
def removeSpanKeysFromTracking (keys : List String) (spans : List SerializableSpan) :
    List String :=
  keys.filter (fun k => !(spans.any (fun s => spanKeyOf s == k)))

/-! ## Batcher (`splitIntoBatches`)

The greedy single-pass batcher.  The serialized byte size of a span
(`new Blob([JSON.stringify(span)]).size` in the source) is an external
function of the span and is modelled as a size parameter. -/

/-- The loop of `splitIntoBatches` over the remaining spans, carrying the
current batch and its accumulated size estimate. -/
def splitLoop (size : SerializableSpan → Nat) (maxB : Nat) :
    List SerializableSpan → List SerializableSpan → Nat → List (List SerializableSpan)
  | [], currentBatch, _ => if currentBatch.isEmpty then [] else [currentBatch]
  | span :: rest, currentBatch, currentBatchSize =>
    if maxB < size span then
      (if currentBatch.isEmpty then [[span]] ++ splitLoop size maxB rest [] 0
       else [currentBatch, [span]] ++ splitLoop size maxB rest [] 0)
    else if !currentBatch.isEmpty && maxB < currentBatchSize + size span then
      currentBatch :: splitLoop size maxB rest [span] (size span)
    else
      splitLoop size maxB rest (currentBatch ++ [span]) (currentBatchSize + size span)

/-- Source `splitIntoBatches`: empty input gives zero batches, otherwise the
greedy loop starting from an empty current batch. -/
def splitIntoBatches (size : SerializableSpan → Nat) (maxB : Nat)
    (spans : List SerializableSpan) : List (List SerializableSpan) :=
  if spans.isEmpty then [] else splitLoop size maxB spans [] 0

/-- Total serialized size of a batch. -/
def batchSize (size : SerializableSpan → Nat) (b : List SerializableSpan) : Nat :=
  (b.map size).sum

/-! ## Flush (`flush` / `shutdown`)

`flush` drains the buffer, splits it into batches and sends them in order.
The transport outcome of batch `i` is modelled by the oracle `sendOk i`; the
spans accepted into the buffer while the send of batch `i` is awaited are
modelled by `arrivals i` (the buffer is shared, and `addToBuffer` can run
between the `await` points of the loop).  On a failed batch the source pushes
every later batch back into the buffer and continues with the next batch. -/

/-- The send loop of `flush`: for batch `i`, first the spans that arrived
during the send are in the buffer, then on success the batch joins the
delivered list and on failure the remaining batches are pushed onto the back
of the buffer and the index is recorded as failed. -/
def sendBatches (allBatches : List (List SerializableSpan)) (sendOk : Nat → Bool)
    (arrivals : Nat → List SerializableSpan) :
    Nat → List (List SerializableSpan) →
      List SerializableSpan × List SerializableSpan × List Nat →
      List SerializableSpan × List SerializableSpan × List Nat
  | _, [], acc => acc
  | i, b :: rest, (buf, delivered, failed) =>
    let buf2 := buf ++ arrivals i
    if sendOk i then
      sendBatches allBatches sendOk arrivals (i + 1) rest (buf2, delivered ++ b, failed)
    else
      sendBatches allBatches sendOk arrivals (i + 1) rest
        (buf2 ++ (allBatches.drop (i + 1)).flatten, delivered, failed ++ [i])

/-- Result of one `flush` call: the state after all side effects, the spans
confirmed delivered, the indices of the batches whose send failed (the source
aggregates them into one error message), and whether the error was re-thrown
to the caller (`raised`). -/
structure FlushOut where
  state : ExporterState
  delivered : List SerializableSpan
  failed : List Nat
  raised : Bool

/-- Source `flush` (body, after acquiring the flush lock): drain the buffer;
if empty return; if the server URL is unset, release the drained spans' keys
and return; otherwise batch, send each batch, release the keys of delivered
spans, and aggregate errors.  The aggregated error is thrown inside `flush`
and re-thrown to the caller only when `shutdownRequested` is set; otherwise
it is logged and swallowed. -/
def flushModel (st : ExporterState) (size : SerializableSpan → Nat)
    (sendOk : Nat → Bool) (arrivals : Nat → List SerializableSpan) : FlushOut :=
  let spansToFlush := st.buffer
  let st1 : ExporterState := { st with buffer := [] }
  if spansToFlush.isEmpty then
    { state := st1, delivered := [], failed := [], raised := false }
  else if !st1.serverUrlSet then
    { state :=
        { st1 with
          bufferSpanKeys := removeSpanKeysFromTracking st1.bufferSpanKeys spansToFlush },
      delivered := [], failed := [], raised := false }
  else
    let batches := splitIntoBatches size st1.maxBatchSizeBytes spansToFlush
    let r := sendBatches batches sendOk arrivals 0 batches ([], [], [])
    let keys :=
      if r.2.1.isEmpty then st1.bufferSpanKeys
      else removeSpanKeysFromTracking st1.bufferSpanKeys r.2.1
    { state := { st1 with buffer := r.1, bufferSpanKeys := keys },
      delivered := r.2.1, failed := r.2.2,
      raised := !r.2.2.isEmpty && st1.shutdownRequested }

/-- Source `shutdown`: sets `shutdownRequested` (and cancels the auto-flush
timer, not modelled) before awaiting a final `flush`, so a flush failure
during shutdown propagates. -/
def shutdownModel (st : ExporterState) (size : SerializableSpan → Nat)
    (sendOk : Nat → Bool) (arrivals : Nat → List SerializableSpan) : FlushOut :=
  flushModel { st with shutdownRequested := true } size sendOk arrivals

/-! Closed forms of the send loop, used to state what a flush does. -/

/-- Closed form of the buffer contents produced by the send loop: for each
batch index, the spans that arrived during its send, then (if the send
failed) all later batches pushed back for retry. -/
def loopBufFormula (allBatches : List (List SerializableSpan)) (sendOk : Nat → Bool)
    (arrivals : Nat → List SerializableSpan) :
    Nat → List (List SerializableSpan) → List SerializableSpan
  | _, [] => []
  | i, _ :: rest =>
    arrivals i ++ (if sendOk i then [] else (allBatches.drop (i + 1)).flatten)
      ++ loopBufFormula allBatches sendOk arrivals (i + 1) rest

/-- Closed form of the delivered list: the concatenation of the batches whose
send succeeded, in order. -/
def loopDelFormula (sendOk : Nat → Bool) :
    Nat → List (List SerializableSpan) → List SerializableSpan
  | _, [] => []
  | i, b :: rest => (if sendOk i then b else []) ++ loopDelFormula sendOk (i + 1) rest

/-- Closed form of the failed-batch index list. -/
def loopFailFormula (sendOk : Nat → Bool) : Nat → List (List SerializableSpan) → List Nat
  | _, [] => []
  | i, _ :: rest => (if sendOk i then [] else [i]) ++ loopFailFormula sendOk (i + 1) rest

/-! ## Export entry point (`export`) -/

/-- Observable events of one `export` call, in order. -/
inductive ExportEv where
  | callback : Bool → ExportEv
  | buffered : Nat → Nat → Nat → ExportEv

/-- Is an event a result-callback invocation? -/
def isCallbackEv : ExportEv → Bool
  | .callback _ => true
  | .buffered _ _ _ => false

/-- Is an event a result-callback invocation reporting failure? -/
def isFailureCallbackEv : ExportEv → Bool
  | .callback ok => !ok
  | .buffered _ _ _ => false

/-- Source `export(spans, resultCallback)`: an empty list gets an immediate
SUCCESS callback; otherwise the SUCCESS callback is invoked first ("to avoid
timeout") and only then are the spans added to the buffer.  The event list
records the order of the observable actions. -/
def exportModel (st : ExporterState) (spans : List SpanRecord) :
    List ExportEv × ExporterState :=
  if spans.isEmpty then ([.callback true], st)
  else
    let r := addToBuffer st spans
    ([.callback true, .buffered r.2.1 r.2.2.1 r.2.2.2], r.1)

/-! ## Batcher lemmas -/

/-- The batcher loop emits every input span exactly once, in order, after the
spans already in the current batch. -/
theorem splitLoop_flatten (size : SerializableSpan → Nat) (maxB : Nat) :
    ∀ (spans currentBatch : List SerializableSpan) (n : Nat),
      (splitLoop size maxB spans currentBatch n).flatten = currentBatch ++ spans := by
  intro spans
  induction spans with
  | nil =>
    intro cur n
    unfold splitLoop
    split_ifs with h <;> simp_all
  | cons span rest ih =>
    intro cur n
    unfold splitLoop
    split_ifs with h1 h2 h3 <;> simp_all [ih]

/-- No batch emitted by the loop is empty. -/
theorem splitLoop_ne_nil (size : SerializableSpan → Nat) (maxB : Nat) :
    ∀ (spans currentBatch : List SerializableSpan) (n : Nat),
      ∀ b ∈ splitLoop size maxB spans currentBatch n, b ≠ [] := by
  intro spans
  induction spans with
  | nil =>
    intro cur n b hb
    unfold splitLoop at hb
    split_ifs at hb <;> simp_all
  | cons span rest ih =>
    intro cur n b hb
    unfold splitLoop at hb
    split_ifs at hb with h1 h2 h3
    · rcases List.mem_append.mp hb with hb | hb
      · rcases List.mem_singleton.mp hb with rfl
        simp
      · exact ih _ _ b hb
    · rcases List.mem_append.mp hb with hb | hb
      · rcases List.mem_cons.mp hb with rfl | hb
        · simp_all
        · rcases List.mem_singleton.mp hb with rfl
          simp
      · exact ih _ _ b hb
    · rcases List.mem_cons.mp hb with rfl | hb
      · rcases Bool.and_eq_true .. |>.mp h3 with ⟨hc, _⟩
        simp_all
      · exact ih _ _ b hb
    · exact ih _ _ b hb

/-- Every batch the loop emits fits the budget, except singletons whose one
span is itself over budget; assumes the running size is the size of the
current batch and the current batch fits. -/
theorem splitLoop_size_bound (size : SerializableSpan → Nat) (maxB : Nat) :
    ∀ (spans currentBatch : List SerializableSpan) (n : Nat),
      n = batchSize size currentBatch → batchSize size currentBatch ≤ maxB →
      ∀ b ∈ splitLoop size maxB spans currentBatch n,
        batchSize size b ≤ maxB ∨ ∃ s, b = [s] ∧ maxB < size s := by
  intro spans
  induction spans with
  | nil =>
    intro cur n _ hle b hb
    unfold splitLoop at hb
    split_ifs at hb <;> simp_all
  | cons span rest ih =>
    intro cur n hn hle b hb
    unfold splitLoop at hb
    split_ifs at hb with h1 h2 h3
    · rcases List.mem_append.mp hb with hb | hb
      · rcases List.mem_singleton.mp hb with rfl
        exact Or.inr ⟨span, rfl, h1⟩
      · exact ih [] 0 (by simp [batchSize]) (by simp [batchSize]) b hb
    · rcases List.mem_append.mp hb with hb | hb
      · rcases List.mem_cons.mp hb with rfl | hb
        · exact Or.inl hle
        · rcases List.mem_singleton.mp hb with rfl
          exact Or.inr ⟨span, rfl, h1⟩
      · exact ih [] 0 (by simp [batchSize]) (by simp [batchSize]) b hb
    · rcases List.mem_cons.mp hb with rfl | hb
      · exact Or.inl hle
      · refine ih [span] (size span) (by simp [batchSize]) ?_ b hb
        simp only [batchSize, List.map_cons, List.map_nil, List.sum_cons, List.sum_nil]
        omega
    · refine ih (cur ++ [span]) (n + size span) ?_ ?_ b hb
      · simp [batchSize, hn]
      · simp only [Bool.and_eq_true, Bool.not_eq_eq_eq_not, Bool.not_true, decide_eq_true_eq,
          not_and, not_lt] at h3
        by_cases hcur : cur = []
        · subst hcur
          simp only [batchSize, List.nil_append, List.map_cons, List.map_nil, List.sum_cons,
            List.sum_nil]
          omega
        · have h4 := h3 (by simp [hcur])
          subst hn
          simp only [batchSize, List.map_append, List.sum_append, List.map_cons, List.map_nil,
            List.sum_cons, List.sum_nil] at h4 ⊢
          omega

/-- C5: for every list of buffered entries and byte budget, the concatenation
of the batches produced by `splitIntoBatches` equals the input list (same
entries, same order, none duplicated or lost), no batch is empty, and an
empty input yields zero batches. -/
theorem c5_batcher_order_preservation (size : SerializableSpan → Nat) (maxB : Nat)
    (spans : List SerializableSpan) :
    (splitIntoBatches size maxB spans).flatten = spans ∧
    (splitIntoBatches size maxB spans).all (fun b => !b.isEmpty) = true ∧
    splitIntoBatches size maxB [] = [] := by
  refine ⟨?_, ?_, rfl⟩
  · unfold splitIntoBatches
    split_ifs with h
    · simp_all
    · simpa using splitLoop_flatten size maxB spans [] 0
  · unfold splitIntoBatches
    split_ifs with h
    · rfl
    · rw [List.all_eq_true]
      intro b hb
      simpa using splitLoop_ne_nil size maxB spans [] 0 b hb

/-- C6: every batch produced by `splitIntoBatches` has total serialized size
at most the budget, except a batch containing exactly one entry whose own
size exceeds the budget (emitted as an oversized singleton). -/
theorem c6_batch_size_bound (size : SerializableSpan → Nat) (maxB : Nat)
    (spans : List SerializableSpan) (b : List SerializableSpan)
    (hb : b ∈ splitIntoBatches size maxB spans) :
    batchSize size b ≤ maxB ∨ ∃ s, b = [s] ∧ maxB < size s := by
  unfold splitIntoBatches at hb
  split_ifs at hb with h
  · simp_all
  · exact splitLoop_size_bound size maxB spans [] 0 (by simp [batchSize])
      (by simp [batchSize]) b hb

/-- C6 witness: the one-entry batch of a unit-size span is within a budget
of 2, applied to the batch that `splitIntoBatches` actually produces. -/
theorem c6_batch_size_bound_witness :
    batchSize (fun _ => 1) [⟨"t", "s", Value.vnull⟩] ≤ 2 ∨
      ∃ s, ([(⟨"t", "s", Value.vnull⟩ : SerializableSpan)] : List SerializableSpan) = [s] ∧
        2 < (fun _ : SerializableSpan => 1) s :=
  c6_batch_size_bound (fun _ => 1) 2 [⟨"t", "s", Value.vnull⟩] [⟨"t", "s", Value.vnull⟩]
    (List.mem_singleton.mpr rfl)

/-! ## Send-loop closed form -/

/-- The send loop equals its closed form: arrivals land in order, each failed
batch appends every later batch to the buffer, successful batches accumulate
into the delivered list, and failed indices are recorded in order. -/
theorem sendBatches_eq (allBatches : List (List SerializableSpan)) (sendOk : Nat → Bool)
    (arrivals : Nat → List SerializableSpan) :
    ∀ (rem : List (List SerializableSpan)) (i : Nat)
      (buf delivered : List SerializableSpan) (failed : List Nat),
      sendBatches allBatches sendOk arrivals i rem (buf, delivered, failed) =
        (buf ++ loopBufFormula allBatches sendOk arrivals i rem,
          delivered ++ loopDelFormula sendOk i rem,
          failed ++ loopFailFormula sendOk i rem) := by
  intro rem
  induction rem with
  | nil =>
    intro i buf delivered failed
    simp [sendBatches, loopBufFormula, loopDelFormula, loopFailFormula]
  | cons b rest ih =>
    intro i buf delivered failed
    unfold sendBatches loopBufFormula loopDelFormula loopFailFormula
    split_ifs with h <;> simp [h, ih, List.append_assoc]

/-! ## Buffer lemmas -/

/-- When the buffer is already at or above capacity at the start of the call,
the `addToBuffer` loop drops every span and changes nothing else (in
particular the key set is untouched and nothing is serialized). -/
theorem addLoop_full (st : ExporterState) (h : st.maxBufferSpans ≤ st.buffer.length) :
    ∀ (spans : List SpanRecord) (acc : AddAcc),
      (spans.foldl (addSpanStep st) acc).serialized = acc.serialized ∧
      (spans.foldl (addSpanStep st) acc).keys = acc.keys ∧
      (spans.foldl (addSpanStep st) acc).duplicates = acc.duplicates ∧
      (spans.foldl (addSpanStep st) acc).dropped = acc.dropped + spans.length := by
  intro spans
  induction spans with
  | nil => intro acc; simp
  | cons s rest ih =>
    intro acc
    simp only [List.foldl_cons]
    have hstep : addSpanStep st acc s = { acc with dropped := acc.dropped + 1 } := by
      simp [addSpanStep, h]
    rw [hstep]
    rcases ih { acc with dropped := acc.dropped + 1 } with ⟨h1, h2, h3, h4⟩
    refine ⟨h1, h2, h3, ?_⟩
    rw [h4]
    simp
    omega

/-- Every span of an `addToBuffer` call is accounted exactly once: accepted,
duplicate, or dropped. -/
theorem addLoop_counts (st : ExporterState) :
    ∀ (spans : List SpanRecord) (acc : AddAcc),
      (spans.foldl (addSpanStep st) acc).serialized.length +
        (spans.foldl (addSpanStep st) acc).duplicates +
        (spans.foldl (addSpanStep st) acc).dropped =
      acc.serialized.length + acc.duplicates + acc.dropped + spans.length := by
  intro spans
  induction spans with
  | nil => intro acc; simp
  | cons s rest ih =>
    intro acc
    simp only [List.foldl_cons]
    rw [ih]
    unfold addSpanStep
    by_cases h1 : st.maxBufferSpans ≤ st.buffer.length
    · simp [h1]
      omega
    · by_cases h2 : spanKeyOf (serializeSpan st.filters s) ∈ acc.keys
      · simp [h1, h2]
        omega
      · simp [h1, h2]
        omega

/-- When the buffer is below capacity at the start of the call, no span is
dropped. -/
theorem addLoop_no_drop (st : ExporterState) (h : st.buffer.length < st.maxBufferSpans) :
    ∀ (spans : List SpanRecord) (acc : AddAcc),
      (spans.foldl (addSpanStep st) acc).dropped = acc.dropped := by
  intro spans
  induction spans with
  | nil => intro acc; simp
  | cons s rest ih =>
    intro acc
    simp only [List.foldl_cons]
    rw [ih]
    unfold addSpanStep
    by_cases h1 : st.maxBufferSpans ≤ st.buffer.length
    · omega
    · by_cases h2 : spanKeyOf (serializeSpan st.filters s) ∈ acc.keys
      · simp [h1, h2]
      · simp [h1, h2]

/-- The recursive filter is the identity on `null`. -/
theorem filterDataRecursive_vnull (flt : Filters) :
    filterDataRecursive flt .vnull = .vnull := by
  simp [filterDataRecursive]

/-- Serializing a span with a `null` payload keeps it unchanged. -/
theorem serializeSpan_vnull (flt : Filters) (t i : String) :
    serializeSpan flt ⟨t, i, .vnull⟩ = ⟨t, i, .vnull⟩ := by
  simp [serializeSpan, filterDataRecursive_vnull]

/-! ## Claims C1, C4, C10 -/

/-- C1 (amended): after an `addToBuffer` call the buffer grows exactly by the
accepted spans; every span is accounted as accepted, duplicate or dropped
(never a silent success); existing entries are never overwritten (the old
buffer is a prefix of the new one); the final length is bounded by
`max (previous length) (maxBufferSpans - 1 + number of records)`; a call
starting at or above capacity drops every record and changes nothing, while a
call starting below capacity drops none (and may therefore leave the buffer
above `maxBufferSpans` — the per-record capacity check reads the pre-call
buffer length). -/
theorem c1_capacity_amended (st : ExporterState) (spans : List SpanRecord) :
    (addToBuffer st spans).1.buffer.length
        = st.buffer.length + (addToBuffer st spans).2.1 ∧
    (addToBuffer st spans).2.1 + (addToBuffer st spans).2.2.1
        + (addToBuffer st spans).2.2.2 = spans.length ∧
    (addToBuffer st spans).1.buffer.take st.buffer.length = st.buffer ∧
    (addToBuffer st spans).1.buffer.length
        ≤ max st.buffer.length (st.maxBufferSpans - 1 + spans.length) ∧
    (if st.maxBufferSpans ≤ st.buffer.length
      then (addToBuffer st spans).1 = st ∧ (addToBuffer st spans).2.2.2 = spans.length
      else (addToBuffer st spans).2.2.2 = 0) := by
  have hcounts := addLoop_counts st spans ⟨[], st.bufferSpanKeys, 0, 0⟩
  simp only [List.length_nil] at hcounts
  refine ⟨by simp [addToBuffer], by simpa [addToBuffer] using hcounts, ?_, ?_, ?_⟩
  · simp only [addToBuffer]
    exact List.take_left _ _
  · by_cases h : st.maxBufferSpans ≤ st.buffer.length
    · rcases addLoop_full st h spans ⟨[], st.bufferSpanKeys, 0, 0⟩ with ⟨h1, _, _, _⟩
      simp [addToBuffer, h1]
    · push_neg at h
      simp only [addToBuffer, List.length_append]
      have hser :
          (spans.foldl (addSpanStep st) ⟨[], st.bufferSpanKeys, 0, 0⟩).serialized.length
            ≤ spans.length := by omega
      omega
  · split_ifs with h
    · rcases addLoop_full st h spans ⟨[], st.bufferSpanKeys, 0, 0⟩ with ⟨h1, h2, _, h4⟩
      refine ⟨?_, by simp [addToBuffer, h4]⟩
      simp [addToBuffer, h1, h2]
    · push_neg at h
      simp [addToBuffer, addLoop_no_drop st h]

/-- C1 counterexample state: capacity 1, empty buffer. -/
def c1St : ExporterState :=
  ⟨[], [], 1, 100, true, false, defaultFilters⟩

/-- C1 counterexample: with `maxBufferSpans = 1` and an empty buffer, one
append of two distinct spans accepts both — the per-record capacity check
reads the pre-call buffer length — so the buffer ends at length 2 > 1 with
zero records counted as dropped, refuting the claimed invariant
`buffer length ≤ maxBufferEntries` after each append. -/
theorem c1_capacity_cex :
    (addToBuffer c1St [⟨"t1", "s1", .vnull⟩, ⟨"t2", "s2", .vnull⟩]).1.buffer.length = 2 ∧
    c1St.maxBufferSpans = 1 ∧
    (addToBuffer c1St [⟨"t1", "s1", .vnull⟩, ⟨"t2", "s2", .vnull⟩]).2.2.2 = 0 := by
  refine ⟨?_, rfl, ?_⟩ <;>
    simp [addToBuffer, addSpanStep, c1St, serializeSpan, filterDataRecursive_vnull, spanKeyOf]

/-- C4 (amended): for a single-record append the capacity check is applied
first — at or above capacity the record is counted as dropped even when its
key is tracked; below capacity a tracked key is counted as a duplicate and
skipped; otherwise the record is redacted (`serializeSpan` applies the
filter), appended, its key added to the tracked set, and counted accepted. -/
theorem c4_append_disposition (st : ExporterState) (span : SpanRecord) :
    addToBuffer st [span] =
      if st.maxBufferSpans ≤ st.buffer.length then (st, 0, 0, 1)
      else if st.bufferSpanKeys.contains (spanKeyOf (serializeSpan st.filters span)) then
        (st, 0, 1, 0)
      else
        ({ st with
            buffer := st.buffer ++ [serializeSpan st.filters span]
            bufferSpanKeys := spanKeyOf (serializeSpan st.filters span) :: st.bufferSpanKeys },
          1, 0, 0) := by
  by_cases h1 : st.maxBufferSpans ≤ st.buffer.length
  · simp [addToBuffer, addSpanStep, h1]
  · by_cases h2 : spanKeyOf (serializeSpan st.filters span) ∈ st.bufferSpanKeys
    · simp [addToBuffer, addSpanStep, h1, h2]
    · simp [addToBuffer, addSpanStep, h1, h2]

/-- C4 counterexample state: one buffered span, its key tracked, capacity 1
(so the buffer is full). -/
def c4St : ExporterState :=
  ⟨[⟨"t3", "s3", .vnull⟩], ["t3:s3"], 1, 100, true, false, defaultFilters⟩

/-- C4 counterexample: a record whose key is already tracked, appended while
the buffer is full, is counted as dropped (capacity first), not as a
duplicate — refuting the claim that the duplicate check precedes the capacity
check. -/
theorem c4_dedup_cex :
    c4St.bufferSpanKeys.contains (spanKeyOf (serializeSpan c4St.filters ⟨"t3", "s3", .vnull⟩))
        = true ∧
    c4St.maxBufferSpans ≤ c4St.buffer.length ∧
    (addToBuffer c4St [⟨"t3", "s3", .vnull⟩]).2.2.1 = 0 ∧
    (addToBuffer c4St [⟨"t3", "s3", .vnull⟩]).2.2.2 = 1 := by
  refine ⟨?_, by simp [c4St], ?_, ?_⟩ <;>
    simp [addToBuffer, addSpanStep, c4St, serializeSpan, filterDataRecursive_vnull, spanKeyOf]

/-- C10: `export` invokes the result callback exactly once, with the SUCCESS
code, as the first observable action (before any buffering), for every input
— including spans later dropped for capacity or skipped as duplicates — and
never signals failure or backpressure. -/
theorem c10_export_reports_success (st : ExporterState) (spans : List SpanRecord) :
    ((exportModel st spans).1 =
        if spans.isEmpty then [ExportEv.callback true]
        else [ExportEv.callback true,
          ExportEv.buffered (addToBuffer st spans).2.1 (addToBuffer st spans).2.2.1
            (addToBuffer st spans).2.2.2]) ∧
    (exportModel st spans).1.countP isCallbackEv = 1 ∧
    (exportModel st spans).1.countP isFailureCallbackEv = 0 ∧
    (exportModel st spans).1.head? = some (.callback true) ∧
    (exportModel st spans).2 = (if spans.isEmpty then st else (addToBuffer st spans).1) := by
  by_cases h : spans.isEmpty <;>
    simp [exportModel, h, isCallbackEv, isFailureCallbackEv, List.countP_cons, List.countP_nil]

/-! ## Flush claims -/

/-- The batches one flush of `st` sends. -/
def flushBatches (st : ExporterState) (size : SerializableSpan → Nat) :
    List (List SerializableSpan) :=
  splitIntoBatches size st.maxBatchSizeBytes st.buffer

/-- Full characterisation of a flush on a non-empty buffer with a configured
server: the final buffer, delivered list, failed indices and key set are the
closed forms of the send loop, and the error is raised to the caller exactly
when a batch failed and shutdown was requested. -/
theorem flushModel_run (st : ExporterState) (size : SerializableSpan → Nat)
    (sendOk : Nat → Bool) (arrivals : Nat → List SerializableSpan)
    (hne : st.buffer ≠ []) (hurl : st.serverUrlSet = true) :
    flushModel st size sendOk arrivals =
      { state := { st with
            buffer := loopBufFormula (flushBatches st size) sendOk arrivals 0
              (flushBatches st size)
            bufferSpanKeys :=
              if (loopDelFormula sendOk 0 (flushBatches st size)).isEmpty then
                st.bufferSpanKeys
              else
                removeSpanKeysFromTracking st.bufferSpanKeys
                  (loopDelFormula sendOk 0 (flushBatches st size)) }
        delivered := loopDelFormula sendOk 0 (flushBatches st size)
        failed := loopFailFormula sendOk 0 (flushBatches st size)
        raised := !(loopFailFormula sendOk 0 (flushBatches st size)).isEmpty
            && st.shutdownRequested } := by
  have h0 : st.buffer.isEmpty = false := List.isEmpty_eq_false.mpr hne
  unfold flushModel flushBatches
  simp only [h0, hurl, Bool.not_true, Bool.false_eq_true, if_false, sendBatches_eq,
    List.nil_append]

/-- A failing index below the batch count appears in the failed-index list. -/
theorem loopFailFormula_mem (sendOk : Nat → Bool) :
    ∀ (rem : List (List SerializableSpan)) (i k : Nat),
      k < rem.length → sendOk (i + k) = false → (i + k) ∈ loopFailFormula sendOk i rem := by
  intro rem
  induction rem with
  | nil => intro i k h; simp at h
  | cons b rest ih =>
    intro i k hk hfail
    unfold loopFailFormula
    cases k with
    | zero =>
      simp only [Nat.add_zero] at hfail ⊢
      simp [hfail]
    | succ m =>
      have harith : i + (m + 1) = (i + 1) + m := by omega
      rw [harith] at hfail ⊢
      have hmem := ih (i + 1) m (by simpa using hk) hfail
      exact List.mem_append.mpr (Or.inr hmem)

/-- C2 (amended): for a flush on a non-empty buffer with a configured server
and no concurrent arrivals, the final buffer is exactly the closed requeue
form — at each failed batch `k` the entries of batches `k+1..n` (not batch
`k` itself) are appended to the buffer, and later batches are still attempted
— the delivered list is the concatenation of every batch whose send
succeeded (before or after a failure), the failed indices are recorded in
order, and exactly the delivered entries' identity keys are released from
the tracked set. -/
theorem c2_requeue_on_failure (st : ExporterState) (size : SerializableSpan → Nat)
    (sendOk : Nat → Bool) (hne : st.buffer ≠ []) (hurl : st.serverUrlSet = true) :
    (flushModel st size sendOk (fun _ => [])).state.buffer =
        loopBufFormula (flushBatches st size) sendOk (fun _ => []) 0 (flushBatches st size) ∧
    (flushModel st size sendOk (fun _ => [])).delivered =
        loopDelFormula sendOk 0 (flushBatches st size) ∧
    (flushModel st size sendOk (fun _ => [])).failed =
        loopFailFormula sendOk 0 (flushBatches st size) ∧
    (flushModel st size sendOk (fun _ => [])).state.bufferSpanKeys =
        (if (loopDelFormula sendOk 0 (flushBatches st size)).isEmpty then st.bufferSpanKeys
         else removeSpanKeysFromTracking st.bufferSpanKeys
           (loopDelFormula sendOk 0 (flushBatches st size))) := by
  rw [flushModel_run st size sendOk (fun _ => []) hne hurl]
  exact ⟨rfl, rfl, rfl, rfl⟩

/-- Buffer entries shared by the C2/C3 counterexamples. -/
def cexA : SerializableSpan := ⟨"t1", "s1", .vnull⟩

/-- Second buffered entry of the C2/C3 counterexamples. -/
def cexB : SerializableSpan := ⟨"t2", "s2", .vnull⟩

/-- A span accepted while a send is in flight (C3 counterexample). -/
def cexC : SerializableSpan := ⟨"t9", "s9", .vnull⟩

/-- Counterexample state: two buffered singleton-batch spans (batch budget 3,
each span of size 3), keys tracked, server configured. -/
def cexFlushSt : ExporterState :=
  ⟨[cexA, cexB], ["t1:s1", "t2:s2"], 10000, 3, true, false, defaultFilters⟩

/-- C2 counterexample: the buffer splits into batches `[[A], [B]]`; the send
of batch 1 fails and batch 2 succeeds.  After the flush the buffer is `[B]` —
batch 1's entry `A` is NOT present (the failed batch is never requeued),
batch 2 WAS attempted after the failure and its key was released while its
entry sits requeued in the buffer, and `A`'s key stays tracked — refuting
the claim that batches `k..n` are in the buffer and not attempted further. -/
theorem c2_requeue_cex :
    splitIntoBatches (fun _ => 3) cexFlushSt.maxBatchSizeBytes cexFlushSt.buffer
        = [[cexA], [cexB]] ∧
    (flushModel cexFlushSt (fun _ => 3) (fun i => !(i == 0)) (fun _ => [])).state.buffer
        = [cexB] ∧
    (flushModel cexFlushSt (fun _ => 3) (fun i => !(i == 0)) (fun _ => [])).state.bufferSpanKeys
        = ["t1:s1"] ∧
    (flushModel cexFlushSt (fun _ => 3) (fun i => !(i == 0)) (fun _ => [])).delivered
        = [cexB] ∧
    cexA ≠ cexB := by
  refine ⟨rfl, rfl, rfl, rfl, ?_⟩
  simp [cexA, cexB]

/-- C2 witness: the characterisation applied to the counterexample state with
an all-success transport. -/
theorem c2_requeue_on_failure_witness :
    (flushModel cexFlushSt (fun _ => 3) (fun _ => true) (fun _ => [])).delivered =
        loopDelFormula (fun _ => true) 0 (flushBatches cexFlushSt (fun _ => 3)) :=
  (c2_requeue_on_failure cexFlushSt (fun _ => 3) (fun _ => true)
    (by simp [cexFlushSt]) rfl).2.1

/-- C3 (amended): entries pushed back after a failed send are appended at the
back of the buffer at the moment of failure, preserving their original
relative order: for every arrival pattern, the buffer after the flush is, per
batch index in order, the spans accepted during that send followed (on
failure) by the requeued later batches — so requeued entries come after
entries accepted before the failure and before entries accepted after it. -/
theorem c3_requeue_order (st : ExporterState) (size : SerializableSpan → Nat)
    (sendOk : Nat → Bool) (arrivals : Nat → List SerializableSpan)
    (hne : st.buffer ≠ []) (hurl : st.serverUrlSet = true) :
    (flushModel st size sendOk arrivals).state.buffer =
        loopBufFormula (flushBatches st size) sendOk arrivals 0 (flushBatches st size) := by
  rw [flushModel_run st size sendOk arrivals hne hurl]

/-- C3 counterexample: batch 1 `[A]` fails while span `C` arrives during its
send; the requeued batch 2 entry `B` is appended AFTER `C`, so the buffer
ends as `[C, B]`, not the claimed front-insertion `[B, C]`. -/
theorem c3_front_requeue_cex :
    (flushModel cexFlushSt (fun _ => 3) (fun i => !(i == 0))
        (fun i => if i == 0 then [cexC] else [])).state.buffer = [cexC, cexB] ∧
    cexB ≠ cexC := by
  refine ⟨rfl, ?_⟩
  simp [cexB, cexC]

/-- C3 witness: the buffer formula applied at the counterexample input. -/
theorem c3_requeue_order_witness :
    (flushModel cexFlushSt (fun _ => 3) (fun i => !(i == 0))
        (fun i => if i == 0 then [cexC] else [])).state.buffer =
      loopBufFormula (flushBatches cexFlushSt (fun _ => 3)) (fun i => !(i == 0))
        (fun i => if i == 0 then [cexC] else []) 0 (flushBatches cexFlushSt (fun _ => 3)) :=
  c3_requeue_order cexFlushSt (fun _ => 3) (fun i => !(i == 0))
    (fun i => if i == 0 then [cexC] else []) (by simp [cexFlushSt]) rfl

/-- C8: if at least one batch send fails, the flush records the failed
batches (the source aggregates them into one error message) after the
requeue and key-release side effects are already in the returned state; the
error is not propagated when `shutdownRequested` is unset (the auto-flush
path logs and continues), and a flush run via `shutdown()` propagates it. -/
theorem c8_failure_propagation (st : ExporterState) (size : SerializableSpan → Nat)
    (sendOk : Nat → Bool) (arrivals : Nat → List SerializableSpan) (k : Nat)
    (hne : st.buffer ≠ []) (hurl : st.serverUrlSet = true)
    (hk : k < (flushBatches st size).length) (hfail : sendOk k = false) :
    (flushModel st size sendOk arrivals).failed ≠ [] ∧
    (st.shutdownRequested = false → (flushModel st size sendOk arrivals).raised = false) ∧
    (shutdownModel st size sendOk arrivals).raised = true ∧
    (flushModel st size sendOk arrivals).state.bufferSpanKeys =
        (if (flushModel st size sendOk arrivals).delivered.isEmpty then st.bufferSpanKeys
         else removeSpanKeysFromTracking st.bufferSpanKeys
           (flushModel st size sendOk arrivals).delivered) := by
  have hmem : k ∈ loopFailFormula sendOk 0 (flushBatches st size) := by
    simpa using loopFailFormula_mem sendOk (flushBatches st size) 0 k hk (by simpa using hfail)
  have hfne : loopFailFormula sendOk 0 (flushBatches st size) ≠ [] :=
    List.ne_nil_of_mem hmem
  rw [flushModel_run st size sendOk arrivals hne hurl]
  refine ⟨hfne, ?_, ?_, rfl⟩
  · intro hsd
    simp [hsd]
  · unfold shutdownModel
    rw [flushModel_run { st with shutdownRequested := true } size sendOk arrivals hne hurl]
    have hb : flushBatches { st with shutdownRequested := true } size = flushBatches st size :=
      rfl
    rw [hb]
    simp [hfne]

/-- C8 witness: at the counterexample state with a transport that always
fails, the shutdown flush propagates the error. -/
theorem c8_failure_propagation_witness :
    (shutdownModel cexFlushSt (fun _ => 3) (fun _ => false) (fun _ => [])).raised = true :=
  (c8_failure_propagation cexFlushSt (fun _ => 3) (fun _ => false) (fun _ => []) 0
    (by simp [cexFlushSt]) rfl (by decide) rfl).2.2.1

/-! ## C9: the flush lock (event-loop model)

`flush()` begins with `await this.flushLock` and only then installs a fresh
lock promise (`this.flushLock = new Promise(...)`), resolved in the
`finally`.  The await and the lock installation are not atomic: every caller
that reads `this.flushLock` before any of them resumes awaits the same
(already resolved) promise, and each such caller later overwrites
`this.flushLock`.  The model below embeds exactly this prologue plus the
drain: promises are numbered, `resolvedLocks` holds the resolved ones
(promise 0, the initial `Promise.resolve()`, starts resolved), and each of
three potential `flush()` calls is a small state machine:
`notStarted → waitingLock (the lock id it read) → sending (what it drained)
→ done`.  A task resumes only when the promise id it awaited is resolved —
exactly the JS scheduling constraint; the violating trace below additionally
respects the FIFO microtask order of the real event loop. -/

/-- Phase of one `flush()` call in the event-loop model. -/
inductive FlushPhase where
  | notStarted : FlushPhase
  | waitingLock : Nat → FlushPhase
  | sending : List Nat → Nat → FlushPhase
  | done : FlushPhase
  deriving DecidableEq

/-- Shared state: the current `flushLock` promise id, a fresh-id counter, the
set of resolved promise ids, the span buffer (span ids), and three tasks. -/
structure JsState where
  flushLock : Nat
  nextLock : Nat
  resolvedLocks : List Nat
  buffer : List Nat
  task0 : FlushPhase
  task1 : FlushPhase
  task2 : FlushPhase
  deriving DecidableEq

/-- Initial state: lock promise 0 resolved, one span (id 10) buffered. -/
def jsInit : JsState := ⟨0, 1, [0], [10], .notStarted, .notStarted, .notStarted⟩

/-- Read a task's phase. -/
def getTask (s : JsState) (t : Nat) : FlushPhase :=
  if t == 0 then s.task0 else if t == 1 then s.task1 else s.task2

/-- Replace a task's phase. -/
def setTask (s : JsState) (t : Nat) (p : FlushPhase) : JsState :=
  if t == 0 then { s with task0 := p }
  else if t == 1 then { s with task1 := p }
  else { s with task2 := p }

/-- Events of the event-loop model: a `flush()` call runs synchronously to
`await this.flushLock` (reading the current lock id); a resume is possible
only once the awaited promise is resolved, and then installs the fresh lock
and drains the buffer (an empty drain returns at once, resolving its lock);
a send completion resolves the task's lock; an `export` appends to the
buffer. -/
inductive JsAct where
  | callFlush : Nat → JsAct
  | resumeFlush : Nat → JsAct
  | finishSend : Nat → JsAct
  | exportSpan : Nat → JsAct

/-- One step of the event-loop model (invalid actions leave the state
unchanged). -/
def jsStep (s : JsState) (act : JsAct) : JsState :=
  match act with
  | .callFlush t =>
    match getTask s t with
    | .notStarted => setTask s t (.waitingLock s.flushLock)
    | _ => s
  | .resumeFlush t =>
    match getTask s t with
    | .waitingLock w =>
      if s.resolvedLocks.contains w then
        let my := s.nextLock
        let drained := s.buffer
        let s1 : JsState := { s with flushLock := my, nextLock := my + 1, buffer := [] }
        if drained.isEmpty then
          setTask { s1 with resolvedLocks := my :: s1.resolvedLocks } t .done
        else setTask s1 t (.sending drained my)
      else s
    | _ => s
  | .finishSend t =>
    match getTask s t with
    | .sending _ my => setTask { s with resolvedLocks := my :: s.resolvedLocks } t .done
    | _ => s
  | .exportSpan e => { s with buffer := s.buffer ++ [e] }

/-- Is a task inside the flush body with a non-empty drained batch (i.e.
draining/sending spans)? -/
def isSending : FlushPhase → Bool
  | .sending d _ => !d.isEmpty
  | _ => false

/-- The violating schedule: tasks 0 and 1 call `flush()` in the same
synchronous turn (both read the initial resolved lock 0); task 0 resumes,
installs lock 1 and drains span 10; task 1 resumes (its awaited lock 0 is
already resolved), installs lock 2, drains nothing and completes at once,
resolving lock 2; a span (11) is exported; task 2 then calls `flush()`,
reads lock 2 — already resolved — and resumes, draining span 11 while task
0's send is still in flight.  This order respects FIFO microtask
scheduling. -/
def c9Trace : List JsAct :=
  [.callFlush 0, .callFlush 1, .resumeFlush 0, .resumeFlush 1,
    .exportSpan 11, .callFlush 2, .resumeFlush 2]

/-- C9 (violation witness): after the schedule above, tasks 0 and 2 are
simultaneously inside the flush body with non-empty drained spans — two
flushes drain and send concurrently, so the `flushLock` promise chain does
not provide the claimed single-flight mutual exclusion. -/
theorem c9_single_flight_violation :
    isSending (c9Trace.foldl jsStep jsInit).task0 = true ∧
    isSending (c9Trace.foldl jsStep jsInit).task2 = true ∧
    (c9Trace.foldl jsStep jsInit).task0 = .sending [10] 1 ∧
    (c9Trace.foldl jsStep jsInit).task2 = .sending [11] 3 := by
  refine ⟨rfl, rfl, rfl, rfl⟩

/-! ## C7: redaction idempotence -/

/-- `filterDataRecursive` equation: strings go through `applyDataFilters`
with the empty key. -/
theorem fRec_vstr (flt : Filters) (s : String) :
    filterDataRecursive flt (.vstr s) = applyDataFilters flt "" (.vstr s) := by
  simp [filterDataRecursive]

/-- `filterDataRecursive` equation: arrays recurse element-wise. -/
theorem fRec_varr (flt : Filters) (l : List Value) :
    filterDataRecursive flt (.varr l) = .varr (filterDataList flt l) := by
  simp [filterDataRecursive]

/-- `filterDataRecursive` equation: objects recurse entry-wise. -/
theorem fRec_vobj (flt : Filters) (kvs : List (String × Value)) :
    filterDataRecursive flt (.vobj kvs) = .vobj (filterDataEntries flt kvs) := by
  simp [filterDataRecursive]

/-- At the empty key (the leaf position of the recursive traversal), the
filter only masks JWT-shaped or API-key-shaped values; everything else is
unchanged. -/
theorem containsPw_empty : containsSubstr (lowerStr "") "password" = false := rfl

theorem authEq_empty : (lowerStr "" == "authorization") = false := rfl

theorem apiKeyAny_empty :
    apiKeyKeyPatterns.any (fun p => containsSubstr (lowerStr "") p) = false := rfl

theorem applyDF_empty_id (flt : Filters) (v : Value)
    (hJ : isJWTToken v = false) (hA : isAPIKey v = false) :
    applyDataFilters flt "" v = v := by
  unfold applyDataFilters
  split_ifs with h0 h1 h2 h3 h4 h5 <;> try rfl
  · simp [containsPw_empty] at h1
  · simp [hJ] at h2
  · simp [authEq_empty] at h3
  · simp [apiKeyAny_empty] at h4
  · simp [hA] at h5

/-- Booleans are left unchanged by the empty-key filter, hence by the
recursive filter. -/
theorem fRec_vbool_id (flt : Filters) (b : Bool) :
    filterDataRecursive flt (.vbool b) = .vbool b := by
  calc filterDataRecursive flt (.vbool b) = applyDataFilters flt "" (.vbool b) := by
        simp [filterDataRecursive]
    _ = .vbool b := applyDF_empty_id flt (.vbool b) rfl rfl

/-- Numbers are left unchanged by the empty-key filter, hence by the
recursive filter. -/
theorem fRec_vnum_id (flt : Filters) (n : Int) :
    filterDataRecursive flt (.vnum n) = .vnum n := by
  calc filterDataRecursive flt (.vnum n) = applyDataFilters flt "" (.vnum n) := by
        simp [filterDataRecursive]
    _ = .vnum n := applyDF_empty_id flt (.vnum n) rfl rfl

/-- The mask token is a fixed point of the recursive filter. -/
theorem fRec_mask (flt : Filters) : filterDataRecursive flt maskValue = maskValue := by
  show filterDataRecursive flt (.vstr "****") = maskValue
  rw [fRec_vstr]
  exact applyDataFilters_mask flt ""

/-- `filterDataList` is the element-wise map of the recursive filter. -/
theorem filterDataList_eq_map (flt : Filters) (l : List Value) :
    filterDataList flt l = l.map (filterDataRecursive flt) := by
  induction l with
  | nil => simp [filterDataList]
  | cons x xs ih => simp [filterDataList, ih]

/-- `filterDataEntries` is the entry-wise map of filter-then-recurse. -/
theorem filterDataEntries_eq_map (flt : Filters) (kvs : List (String × Value)) :
    filterDataEntries flt kvs =
      kvs.map (fun kv => (kv.1, filterDataRecursive flt (applyDataFilters flt kv.1 kv.2))) := by
  induction kvs with
  | nil => simp [filterDataEntries]
  | cons kv rest ih => simp [filterDataEntries, ih]

/-- If a value survives `applyDataFilters` unchanged at some key but the
filtered value is masked at that key on the second pass, then the filtered
value was already the mask token (a second pass can only re-mask what the
first pass masked). -/
theorem applyDF_second_mask (flt : Filters) (key : String) (v : Value)
    (h1 : applyDataFilters flt key v = v)
    (h2 : applyDataFilters flt key (filterDataRecursive flt v) = maskValue) :
    filterDataRecursive flt v = maskValue := by
  cases v with
  | vnull =>
    rw [filterDataRecursive_vnull] at h2 ⊢
    unfold applyDataFilters at h2
    simp [truthy, maskValue] at h2
  | vbool b =>
    rw [fRec_vbool_id] at h2 ⊢
    rw [h1] at h2
    exact h2
  | vnum n =>
    rw [fRec_vnum_id] at h2 ⊢
    rw [h1] at h2
    exact h2
  | vstr s =>
    rcases applyDataFilters_eq_or flt "" (.vstr s) with h3 | h3
    · rw [fRec_vstr, h3] at h2 ⊢
      rw [h1] at h2
      exact h2
    · rw [fRec_vstr, h3]
  | varr l =>
    rw [fRec_varr] at h2 ⊢
    unfold applyDataFilters at h1 h2
    simp only [truthy, isJWTToken, isAPIKey, Bool.and_false, Bool.not_true,
      Bool.false_eq_true, if_false, if_neg] at h1 h2
    split_ifs at h1 h2 <;> simp_all [maskValue]
  | vobj kvs =>
    rw [fRec_vobj] at h2 ⊢
    unfold applyDataFilters at h1 h2
    simp only [truthy, isJWTToken, isAPIKey, Bool.and_false, Bool.not_true,
      Bool.false_eq_true, if_false, if_neg] at h1 h2
    split_ifs at h1 h2 <;> simp_all [maskValue]

/-- One object entry is stable under a second pass: filtering the
already-filtered value at the same key changes nothing (given idempotence of
the recursive filter on the original value). -/
theorem entry_stable (flt : Filters) (key : String) (v : Value)
    (ihv : filterDataRecursive flt (filterDataRecursive flt v) = filterDataRecursive flt v) :
    filterDataRecursive flt
        (applyDataFilters flt key (filterDataRecursive flt (applyDataFilters flt key v)))
      = filterDataRecursive flt (applyDataFilters flt key v) := by
  rcases applyDataFilters_eq_or flt key v with h | h
  · rw [h]
    rcases applyDataFilters_eq_or flt key (filterDataRecursive flt v) with h2 | h2
    · rw [h2]
      exact ihv
    · rw [h2, fRec_mask]
      exact (applyDF_second_mask flt key v h h2).symm
  · rw [h, fRec_mask, applyDataFilters_mask, fRec_mask]

/-- A member of a value list is no larger than the list. -/
theorem valueSize_le_of_mem {x : Value} :
    ∀ {l : List Value}, x ∈ l → valueSize x ≤ valueListSize l := by
  intro l
  induction l with
  | nil => intro h; simp at h
  | cons y ys ih =>
    intro h
    rcases List.mem_cons.mp h with rfl | h
    · simp [valueListSize]
      omega
    · have := ih h
      simp [valueListSize]
      omega

/-- The value of a member entry is no larger than the entry list. -/
theorem valueSize_le_of_mem_entries {kv : String × Value} :
    ∀ {kvs : List (String × Value)}, kv ∈ kvs → valueSize kv.2 ≤ valueEntriesSize kvs := by
  intro kvs
  induction kvs with
  | nil => intro h; simp at h
  | cons e es ih =>
    intro h
    rcases List.mem_cons.mp h with rfl | h
    · simp [valueEntriesSize]
      omega
    · have := ih h
      simp [valueEntriesSize]
      omega

/-- Structural induction principle for nested values. -/
theorem value_ind (P : Value → Prop) (hnull : P .vnull) (hbool : ∀ b, P (.vbool b))
    (hnum : ∀ n, P (.vnum n)) (hstr : ∀ s, P (.vstr s))
    (harr : ∀ l, (∀ x ∈ l, P x) → P (.varr l))
    (hobj : ∀ kvs, (∀ kv ∈ kvs, P kv.2) → P (.vobj kvs)) : ∀ v, P v := by
  have aux : ∀ n, ∀ v, valueSize v ≤ n → P v := by
    intro n
    induction n with
    | zero =>
      intro v hv
      have := valueSize_pos v
      omega
    | succ n ih =>
      intro v hv
      cases v with
      | vnull => exact hnull
      | vbool b => exact hbool b
      | vnum m => exact hnum m
      | vstr s => exact hstr s
      | varr l =>
        refine harr l (fun x hx => ih x ?_)
        have h1 := valueSize_le_of_mem hx
        simp only [valueSize] at hv
        omega
      | vobj kvs =>
        refine hobj kvs (fun kv hkv => ih kv.2 ?_)
        have h1 := valueSize_le_of_mem_entries hkv
        simp only [valueSize] at hv
        omega
  intro v
  exact aux (valueSize v) v (Nat.le_refl _)

/-- C7: for every value and every fixed enabled-filter set, applying the
recursive redaction filter twice equals applying it once — masked values are
not re-matched into different masks, and values the first pass left unmasked
are left unchanged by the second. -/
theorem c7_redaction_idempotent (flt : Filters) (v : Value) :
    filterDataRecursive flt (filterDataRecursive flt v) = filterDataRecursive flt v := by
  refine value_ind
    (fun v => filterDataRecursive flt (filterDataRecursive flt v) = filterDataRecursive flt v)
    ?_ ?_ ?_ ?_ ?_ ?_ v
  · simp [filterDataRecursive_vnull]
  · intro b
    rw [fRec_vbool_id, fRec_vbool_id]
  · intro n
    rw [fRec_vnum_id, fRec_vnum_id]
  · intro s
    rcases applyDataFilters_eq_or flt "" (.vstr s) with h | h
    · have hid : filterDataRecursive flt (.vstr s) = .vstr s := by rw [fRec_vstr, h]
      rw [hid, hid]
    · have hm : filterDataRecursive flt (.vstr s) = maskValue := by rw [fRec_vstr, h]
      rw [hm, fRec_mask]
  · intro l ih
    rw [fRec_varr, fRec_varr, filterDataList_eq_map, filterDataList_eq_map, List.map_map]
    have : ∀ x ∈ l,
        (filterDataRecursive flt ∘ filterDataRecursive flt) x = filterDataRecursive flt x :=
      fun x hx => ih x hx
    rw [List.map_congr_left this]
  · intro kvs ih
    rw [fRec_vobj, fRec_vobj, filterDataEntries_eq_map, filterDataEntries_eq_map, List.map_map]
    have : ∀ kv ∈ kvs,
        ((fun kv : String × Value =>
            (kv.1, filterDataRecursive flt (applyDataFilters flt kv.1 kv.2))) ∘
          (fun kv : String × Value =>
            (kv.1, filterDataRecursive flt (applyDataFilters flt kv.1 kv.2)))) kv =
        (fun kv : String × Value =>
            (kv.1, filterDataRecursive flt (applyDataFilters flt kv.1 kv.2))) kv := by
      intro kv hkv
      simp only [Function.comp_apply]
      exact congrArg (fun w => (kv.1, w)) (entry_stable flt kv.1 kv.2 (ih kv hkv))
    rw [List.map_congr_left this]

end Aiqa
